import Mathlib

/-!
Verification of the realtime collaboration board server.

The model below is a shallow embedding of the Socket.IO event handlers of
the server (the current server revision, the one embedded in README.md,
which matches package.json and the client handshake: it authenticates the
socket at connection time and gates join-board on db.checkBoardAccess;
the older copy at server.js lacks that gate but is otherwise identical in
the mutation, cursor and disconnect handlers), together with the database
functions of database.js that those handlers call.

Modelling conventions:
- A JavaScript Map is an association list kept in insertion order;
  Map.set updates an existing key in place and appends a fresh key.
- uuidv4 is modelled as a fresh-id counter held in the server state
  (field nextId); freshness of generated ids is the only property the
  code relies on.  A failed create persists nothing, so the draw it made
  is unobservable and the counter is left unchanged on that path.
- getRandomColor is modelled by an index into the fixed ten-color
  palette of the source, supplied as an argument to the join handler.
- Each awaited database call is modelled by its resolved value; for the
  mutation handlers the success or rejection of the awaited persistence
  promise is an explicit Bool argument (true = resolved, false =
  rejected into the catch block).
- socket.emit, socket.to(room).emit and io.to(room).emit become the
  three constructors of Emit; delivery of an emission is resolved
  against the room membership at the time the emission was produced.
- The join-board handler contains an await (db.getBoardElements)
  between the emission of the presence snapshot and the emission of the
  element list.  The Node event loop may run another handler during
  that await, so the handler is additionally split into its two atomic
  segments (joinBoardStart, up to the await, and joinPhase2, the
  resumption); the run function executes a list of such atomic
  segments, which is exactly the interleaving freedom the event loop
  has.  joinBoard is the uninterrupted composition of the two segments.
-/

namespace Board

/-- Socket identifier (socket.id). -/
abbrev SocketId := Nat

/-- Board identifier. -/
abbrev BoardId := String

/-- User identifier. -/
abbrev UserId := String

/-- The user object a client sends with join-board. -/
structure UserInfo where
  userId : UserId
  name : String
deriving DecidableEq, Repr

/-- A presence entry stored in boardUsers: userId, name and assigned color. -/
structure UserEntry where
  userId : UserId
  name : String
  color : String
deriving DecidableEq, Repr

/-- The element object a client sends with create-element.  The client may
propose an id; the server discards it. -/
structure ElementPayload where
  clientId : Option Nat
  type : String
  content : String
  position : String
  style : String
deriving DecidableEq, Repr

/-- An element as broadcast in element-created: the client payload with the
server-assigned id spliced in. -/
structure Element where
  id : Nat
  type : String
  content : String
  position : String
  style : String
deriving DecidableEq, Repr

/-- A row of the elements table (INSERT in db.createElement adds board_id). -/
structure StoredElement where
  id : Nat
  boardId : BoardId
  type : String
  content : String
  position : String
  style : String
deriving DecidableEq, Repr

/-- The element object a client sends with update-element. -/
structure UpdatePayload where
  id : Option Nat
  content : String
  position : String
  style : String
deriving DecidableEq, Repr

/-- A cursor position. -/
structure Pos where
  x : Int
  y : Int
deriving DecidableEq, Repr

/-- Membership Oracle store: the board_members rows and the elements rows. -/
structure DbState where
  members : List (BoardId × UserId)
  elements : List StoredElement
deriving DecidableEq, Repr

/-- Lookup in an association list (JavaScript Map.get). -/
def mapLookup {α β : Type} [DecidableEq α] : List (α × β) → α → Option β
  | [], _ => none
  | p :: rest, a => if p.1 = a then some p.2 else mapLookup rest a

/-- Key presence in an association list (JavaScript Map.has). -/
def mapHas {α β : Type} [DecidableEq α] (m : List (α × β)) (a : α) : Bool :=
  (mapLookup m a).isSome

/-- JavaScript Map.set: replace the value in place when the key exists,
append the pair otherwise. -/
def mapSet {α β : Type} [DecidableEq α] : List (α × β) → α → β → List (α × β)
  | [], a, b => [(a, b)]
  | p :: rest, a, b => if p.1 = a then (a, b) :: rest else p :: mapSet rest a b

/-- db.checkBoardAccess: SELECT 1 FROM board_members WHERE board_id AND
user_id, resolved to the truthiness of the row. -/
def checkBoardAccess (db : DbState) (b : BoardId) (u : UserId) : Bool :=
  db.members.any (fun p => p.1 = b && p.2 = u)

/-- db.getBoardElements: SELECT from elements WHERE board_id, in insertion
(rowid) order. -/
def getBoardElements (db : DbState) (b : BoardId) : List StoredElement :=
  db.elements.filter (fun e => e.boardId = b)

/-- The fixed color palette of getRandomColor. -/
def colorPalette : List String :=
  ["#e74c3c", "#3498db", "#2ecc71", "#f39c12", "#9b59b6",
   "#1abc9c", "#e67e22", "#34495e", "#e91e63", "#673ab7"]

/-- getRandomColor, with the random draw exposed as an index. -/
def randColor (i : Nat) : String :=
  colorPalette.getD (i % colorPalette.length) "#e74c3c"

/-- Messages the server emits to clients. -/
inductive Msg where
  | userJoined (sid : SocketId) (entry : UserEntry)
  | currentUsers (users : List (SocketId × UserEntry))
  | loadElements (es : List StoredElement)
  | elementCreated (e : Element)
  | elementUpdated (p : UpdatePayload)
  | elementDeleted (i : Nat)
  | cursorUpdate (sid : SocketId) (p : Pos)
  | userLeft (sid : SocketId)
  | error (message : String)
deriving DecidableEq, Repr

/-- An emission: socket.emit targets one socket, io.to targets a room,
socket.to targets a room minus the sending socket. -/
inductive Emit where
  | toSocket (target : SocketId) (m : Msg)
  | toRoom (b : BoardId) (m : Msg)
  | toRoomExcept (b : BoardId) (sender : SocketId) (m : Msg)
deriving DecidableEq, Repr

/-- The message carried by an emission. -/
def Emit.msg : Emit → Msg
  | Emit.toSocket _ m => m
  | Emit.toRoom _ m => m
  | Emit.toRoomExcept _ _ m => m

/-- Socket.IO room index: board id to member sockets. -/
abbrev Rooms := List (BoardId × List SocketId)

/-- Full server state: the database, the boardUsers presence map, the
Socket.IO rooms, and the fresh-id counter modelling uuidv4. -/
structure ServerState where
  db : DbState
  boardUsers : List (BoardId × List (SocketId × UserEntry))
  rooms : Rooms
  nextId : Nat
deriving DecidableEq, Repr

/-- Members of a room (empty when the room does not exist). -/
def roomMembers (rooms : Rooms) (b : BoardId) : List SocketId :=
  (mapLookup rooms b).getD []

/-- socket.join: add the socket to the room, creating the room if needed;
joining a room the socket is already in is a no-op. -/
def joinRoom (rooms : Rooms) (b : BoardId) (sid : SocketId) : Rooms :=
  match mapLookup rooms b with
  | none => mapSet rooms b [sid]
  | some ss => if sid ∈ ss then rooms else mapSet rooms b (ss ++ [sid])

/-- Transport close: Socket.IO removes the socket from every room and
drops rooms that became empty. -/
def leaveAllRooms (rooms : Rooms) (sid : SocketId) : Rooms :=
  (rooms.map (fun p => (p.1, p.2.filter (fun s => !(s = sid : Bool))))).filter
    (fun p => !p.2.isEmpty)

/-- Whether an emission produced while the rooms had the given shape is
delivered to a socket. -/
def deliveredTo (rooms : Rooms) : Emit → SocketId → Bool
  | Emit.toSocket t _, s => decide (s = t)
  | Emit.toRoom b _, s => decide (s ∈ roomMembers rooms b)
  | Emit.toRoomExcept b x _, s => decide (s ∈ roomMembers rooms b ∧ s ≠ x)

/-- Messages a socket receives from a list of emissions, each tagged with
the rooms at the time it was produced. -/
def receivedBy (tagged : List (Rooms × Emit)) (s : SocketId) : List Msg :=
  tagged.filterMap (fun te => if deliveredTo te.1 te.2 s then some te.2.msg else none)

/-- Splice the server-assigned id into the client payload: the spread
expression building elementWithId from element and the fresh id. -/
def withServerId (p : ElementPayload) (i : Nat) : Element :=
  { id := i, type := p.type, content := p.content, position := p.position, style := p.style }

/-- db.createElement stores the element under the given board id. -/
def storeElement (b : BoardId) (e : Element) : StoredElement :=
  { id := e.id, boardId := b, type := e.type, content := e.content,
    position := e.position, style := e.style }

/-- First atomic segment of the join-board handler: destructure the data,
await db.checkBoardAccess, and on denial emit the access error and return;
on success run socket.join, insert the presence entry (assigning a color),
broadcast user-joined to the rest of the room and emit the current-users
snapshot to the joiner.  The segment ends at the db.getBoardElements
await.  Missing boardId or user lands in the catch block, which emits the
generic join failure error. -/
def joinBoardStart (st : ServerState) (sid : SocketId)
    (data : Option BoardId × Option UserInfo) (colorIdx : Nat) :
    ServerState × List Emit :=
  match data with
  | (some b, some u) =>
    if checkBoardAccess st.db b u.userId then
      let entry : UserEntry := { userId := u.userId, name := u.name, color := randColor colorIdx }
      let rooms' := joinRoom st.rooms b sid
      let prev := (mapLookup st.boardUsers b).getD []
      let users' := mapSet prev sid entry
      let st' := { st with rooms := rooms', boardUsers := mapSet st.boardUsers b users' }
      (st', [Emit.toRoomExcept b sid (Msg.userJoined sid entry),
             Emit.toSocket sid (Msg.currentUsers users')])
    else
      (st, [Emit.toSocket sid (Msg.error "You do not have access to this board")])
  | _ => (st, [Emit.toSocket sid (Msg.error "Failed to join board")])

/-- Second atomic segment of the join-board handler: the resumption after
the db.getBoardElements await emits load-elements to the joiner, reading
the element table as it stands when the promise resolves. -/
def joinPhase2 (st : ServerState) (sid : SocketId) (b : BoardId) : List Emit :=
  [Emit.toSocket sid (Msg.loadElements (getBoardElements st.db b))]

/-- The join-board handler run without interruption: the first segment
followed immediately by the load-elements emission (which only happens on
the successful path). -/
def joinBoard (st : ServerState) (sid : SocketId)
    (data : Option BoardId × Option UserInfo) (colorIdx : Nat) :
    ServerState × List Emit :=
  match data with
  | (some b, some u) =>
    if checkBoardAccess st.db b u.userId then
      let r := joinBoardStart st sid (some b, some u) colorIdx
      (r.1, r.2 ++ joinPhase2 r.1 sid b)
    else
      (st, [Emit.toSocket sid (Msg.error "You do not have access to this board")])
  | _ => (st, [Emit.toSocket sid (Msg.error "Failed to join board")])

/-- The create-element handler: validate the data, draw a fresh id and
overwrite any client-proposed id, await db.createElement, and only when
that resolves broadcast element-created to the whole room; a rejected
persistence promise lands in the catch block, which emits the error to
the sender and leaves every piece of state unchanged. -/
def createElement (st : ServerState) (sid : SocketId)
    (data : Option BoardId × Option ElementPayload) (dbOk : Bool) :
    ServerState × List Emit :=
  match data with
  | (some b, some p) =>
    let eid := st.nextId
    let elementWithId := withServerId p eid
    if dbOk then
      ({ st with
          db := { st.db with elements := st.db.elements ++ [storeElement b elementWithId] },
          nextId := st.nextId + 1 },
       [Emit.toRoom b (Msg.elementCreated elementWithId)])
    else
      (st, [Emit.toSocket sid (Msg.error "Failed to create element")])
  | _ => (st, [Emit.toSocket sid (Msg.error "Failed to create element")])

/-- db.updateElement: UPDATE content, position and style of the row with
the given id (a missing id updates nothing). -/
def applyUpdate (es : List StoredElement) (i : Nat) (p : UpdatePayload) : List StoredElement :=
  es.map (fun e =>
    if e.id = i then
      { e with content := p.content, position := p.position, style := p.style }
    else e)

/-- The update-element handler: validate boardId, element and element.id,
await db.updateElement, and only on resolution broadcast element-updated
(the client element, verbatim) to the whole room; rejection emits the
error to the sender with no state change. -/
def updateElement (st : ServerState) (sid : SocketId)
    (data : Option BoardId × Option UpdatePayload) (dbOk : Bool) :
    ServerState × List Emit :=
  match data with
  | (some b, some p) =>
    match p.id with
    | some i =>
      if dbOk then
        ({ st with db := { st.db with elements := applyUpdate st.db.elements i p } },
         [Emit.toRoom b (Msg.elementUpdated p)])
      else
        (st, [Emit.toSocket sid (Msg.error "Failed to update element")])
    | none => (st, [Emit.toSocket sid (Msg.error "Failed to update element")])
  | _ => (st, [Emit.toSocket sid (Msg.error "Failed to update element")])

/-- The delete-element handler: validate the data, await db.deleteElement
(DELETE FROM elements WHERE id), and only on resolution broadcast
element-deleted (the bare id) to the whole room; rejection emits the
error to the sender with no state change. -/
def deleteElement (st : ServerState) (sid : SocketId)
    (data : Option BoardId × Option Nat) (dbOk : Bool) :
    ServerState × List Emit :=
  match data with
  | (some b, some i) =>
    if dbOk then
      ({ st with db := { st.db with elements := st.db.elements.filter (fun e => !(e.id = i : Bool)) } },
       [Emit.toRoom b (Msg.elementDeleted i)])
    else
      (st, [Emit.toSocket sid (Msg.error "Failed to delete element")])
  | _ => (st, [Emit.toSocket sid (Msg.error "Failed to delete element")])

/-- The cursor-move handler: nothing is persisted; valid data is broadcast
as cursor-update to the room through socket.to, which always excludes the
sending socket; the catch block of this handler only logs, so invalid
data emits nothing at all. -/
def cursorMove (st : ServerState) (sid : SocketId)
    (data : Option BoardId × Option Pos) : ServerState × List Emit :=
  match data with
  | (some b, some p) => (st, [Emit.toRoomExcept b sid (Msg.cursorUpdate sid p)])
  | _ => (st, [])

/-- The loop body of the disconnect handler over the boardUsers map, in
iteration (insertion) order: for each board holding the socket, delete the
entry, emit user-left to the room, and drop the board from the map when
its user map became empty. -/
def cleanupBoards :
    List (BoardId × List (SocketId × UserEntry)) → SocketId →
    List (BoardId × List (SocketId × UserEntry)) × List Emit
  | [], _ => ([], [])
  | p :: rest, sid =>
    let r := cleanupBoards rest sid
    if mapHas p.2 sid then
      let users' := p.2.filter (fun q => !(q.1 = sid : Bool))
      let boards' := if users'.isEmpty then r.1 else (p.1, users') :: r.1
      (boards', Emit.toRoom p.1 (Msg.userLeft sid) :: r.2)
    else
      (p :: r.1, r.2)

/-- The disconnect handler: the transport close first removes the socket
from every Socket.IO room, then the handler walks boardUsers and cleans
up presence, emitting user-left per board the socket was in. -/
def disconnect (st : ServerState) (sid : SocketId) : ServerState × List Emit :=
  let rooms' := leaveAllRooms st.rooms sid
  let r := cleanupBoards st.boardUsers sid
  ({ st with rooms := rooms', boardUsers := r.1 }, r.2)

/-- An atomic segment of the event loop: every handler except join-board
runs to completion in one segment (their awaits are terminal with respect
to observable emissions or are modelled by the resolved value); the
join-board handler is suspended at its db.getBoardElements await, giving
a start segment and a load segment. -/
inductive Seg where
  | segJoin (sid : SocketId) (data : Option BoardId × Option UserInfo) (colorIdx : Nat)
  | segJoinSnap (sid : SocketId) (data : Option BoardId × Option UserInfo) (colorIdx : Nat)
  | segJoinLoad (sid : SocketId) (b : BoardId)
  | segCreate (sid : SocketId) (data : Option BoardId × Option ElementPayload) (dbOk : Bool)
  | segUpdate (sid : SocketId) (data : Option BoardId × Option UpdatePayload) (dbOk : Bool)
  | segDelete (sid : SocketId) (data : Option BoardId × Option Nat) (dbOk : Bool)
  | segCursor (sid : SocketId) (data : Option BoardId × Option Pos)
  | segDisconnect (sid : SocketId)
deriving DecidableEq, Repr

/-- Execute one atomic segment. -/
def stepSeg (st : ServerState) : Seg → ServerState × List Emit
  | Seg.segJoin sid d c => joinBoard st sid d c
  | Seg.segJoinSnap sid d c => joinBoardStart st sid d c
  | Seg.segJoinLoad sid b => (st, joinPhase2 st sid b)
  | Seg.segCreate sid d ok => createElement st sid d ok
  | Seg.segUpdate sid d ok => updateElement st sid d ok
  | Seg.segDelete sid d ok => deleteElement st sid d ok
  | Seg.segCursor sid d => cursorMove st sid d
  | Seg.segDisconnect sid => disconnect st sid

/-- Execute a list of atomic segments, tagging every emission with the
rooms as they stand when the emission is produced (all emissions of a
segment happen after its room changes, so the post-segment rooms are the
correct tag for each of them). -/
def run : ServerState → List Seg → ServerState × List (Rooms × Emit)
  | st, [] => (st, [])
  | st, s :: rest =>
    let r := stepSeg st s
    let r' := run r.1 rest
    (r'.1, r.2.map (fun e => (r.1.rooms, e)) ++ r'.2)

/-! ### Association list lemmas -/

theorem mapLookup_mapSet_self {α β : Type} [DecidableEq α] (m : List (α × β)) (k : α) (v : β) :
    mapLookup (mapSet m k v) k = some v := by
  induction m with
  | nil => simp [mapSet, mapLookup]
  | cons p rest ih =>
    by_cases h : p.1 = k
    · simp [mapSet, mapLookup, h]
    · simp [mapSet, mapLookup, h, ih]

theorem mapLookup_mapSet_ne {α β : Type} [DecidableEq α] (m : List (α × β)) (k k' : α) (v : β)
    (h : k ≠ k') : mapLookup (mapSet m k v) k' = mapLookup m k' := by
  induction m with
  | nil => simp [mapSet, mapLookup, h]
  | cons p rest ih =>
    by_cases hp : p.1 = k
    · simp [mapSet, mapLookup, hp, h]
    · simp [mapSet, mapLookup, hp, ih]

theorem mapSet_of_not_has {α β : Type} [DecidableEq α] (m : List (α × β)) (k : α) (v : β)
    (h : mapHas m k = false) : mapSet m k v = m ++ [(k, v)] := by
  induction m with
  | nil => simp [mapSet]
  | cons p rest ih =>
    by_cases hp : p.1 = k
    · exfalso
      simp [mapHas, mapLookup, hp] at h
    · simp [mapHas, mapLookup, hp] at h
      simp [mapSet, hp, ih (by simp [mapHas, h])]

theorem mapHas_filter_out {α β : Type} [DecidableEq α] (l : List (α × β)) (k : α) :
    mapHas (l.filter (fun q => !(q.1 = k : Bool))) k = false := by
  induction l with
  | nil => simp [mapHas, mapLookup]
  | cons p rest ih =>
    by_cases hp : p.1 = k
    · simpa [List.filter, hp] using ih
    · simpa [List.filter, hp, mapHas, mapLookup] using ih

/-! ### Room lemmas -/

theorem mem_roomMembers_joinRoom (rooms : Rooms) (b : BoardId) (sid : SocketId) :
    sid ∈ roomMembers (joinRoom rooms b sid) b := by
  unfold joinRoom
  cases h : mapLookup rooms b with
  | none => simp [roomMembers, mapLookup_mapSet_self]
  | some ss =>
    by_cases hs : sid ∈ ss
    · simp [hs, roomMembers, h]
    · simp [hs, roomMembers, mapLookup_mapSet_self]

theorem not_mem_filter_ne (l : List SocketId) (sid : SocketId) :
    sid ∉ l.filter (fun s => !(s = sid : Bool)) := by
  intro h
  have := List.of_mem_filter h
  simp at this

theorem filter_ne_of_not_mem (l : List SocketId) (sid : SocketId) (h : sid ∉ l) :
    l.filter (fun s => !(s = sid : Bool)) = l := by
  apply List.filter_eq_self.mpr
  intro a ha
  simp
  intro hc
  exact absurd (hc ▸ ha) h

theorem not_mem_roomMembers_leaveAllRooms (rooms : Rooms) (b : BoardId) (sid : SocketId) :
    sid ∉ roomMembers (leaveAllRooms rooms sid) b := by
  unfold leaveAllRooms roomMembers
  induction rooms with
  | nil => simp [mapLookup]
  | cons p rest ih =>
    by_cases he : (p.2.filter (fun s => !(s = sid : Bool))).isEmpty
    · simpa [List.filter, he] using ih
    · by_cases hb : p.1 = b
      · simp [List.filter, he, mapLookup, hb]
      · simpa [List.filter, he, mapLookup, hb] using ih

theorem leaveAllRooms_idem (rooms : Rooms) (sid : SocketId) :
    leaveAllRooms (leaveAllRooms rooms sid) sid = leaveAllRooms rooms sid := by
  unfold leaveAllRooms
  induction rooms with
  | nil => simp
  | cons p rest ih =>
    by_cases he : (p.2.filter (fun s => !(s = sid : Bool))).isEmpty
    · simpa [List.filter, he] using ih
    · have hfix : (p.2.filter (fun s => !(s = sid : Bool))).filter
          (fun s => !(s = sid : Bool)) = p.2.filter (fun s => !(s = sid : Bool)) :=
        filter_ne_of_not_mem _ sid (not_mem_filter_ne p.2 sid)
      simp only [List.filter, he, List.map_cons, Bool.not_false]
      simp only [List.filter_cons, hfix, he]
      simp [ih]

/-! ### Disconnect cleanup lemmas -/

theorem cleanupBoards_no_sid (m : List (BoardId × List (SocketId × UserEntry)))
    (sid : SocketId) :
    ∀ q ∈ (cleanupBoards m sid).1, mapHas q.2 sid = false := by
  induction m with
  | nil => simp [cleanupBoards]
  | cons p rest ih =>
    intro q hq
    by_cases hp : mapHas p.2 sid
    · by_cases he : (p.2.filter (fun r => !(r.1 = sid : Bool))).isEmpty
      · exact ih q (by simpa [cleanupBoards, hp, he] using hq)
      · rw [cleanupBoards] at hq
        simp only [hp, if_true, he, if_false] at hq
        rcases List.mem_cons.mp hq with h | h
        · rw [h]
          exact mapHas_filter_out p.2 sid
        · exact ih q h
    · rw [cleanupBoards] at hq
      simp only [hp, if_false] at hq
      rcases List.mem_cons.mp hq with h | h
      · rw [h]
        simpa using hp
      · exact ih q h

theorem cleanupBoards_of_no_sid (m : List (BoardId × List (SocketId × UserEntry)))
    (sid : SocketId) (h : ∀ q ∈ m, mapHas q.2 sid = false) :
    cleanupBoards m sid = (m, []) := by
  induction m with
  | nil => simp [cleanupBoards]
  | cons p rest ih =>
    have hp : mapHas p.2 sid = false := h p (by simp)
    have hrest := ih (fun q hq => h q (by simp [hq]))
    simp [cleanupBoards, hp, hrest]

theorem mapLookup_eq_none_of_keys {α β : Type} [DecidableEq α] (l : List (α × β)) (b : α)
    (h : ∀ q ∈ l, q.1 ≠ b) : mapLookup l b = none := by
  induction l with
  | nil => rfl
  | cons p rest ih =>
    simp [mapLookup, h p (List.mem_cons_self p rest)]
    exact ih fun q hq => h q (List.mem_cons_of_mem p hq)

theorem cleanupBoards_keys (m : List (BoardId × List (SocketId × UserEntry)))
    (sid : SocketId) :
    ∀ q ∈ (cleanupBoards m sid).1, q.1 ∈ m.map Prod.fst := by
  induction m with
  | nil => simp [cleanupBoards]
  | cons p rest ih =>
    intro q hq
    by_cases hp : mapHas p.2 sid
    · by_cases he : (p.2.filter (fun r => !(r.1 = sid : Bool))).isEmpty
      · have := ih q (by simpa [cleanupBoards, hp, he] using hq)
        simp only [List.map_cons, List.mem_cons]
        exact Or.inr this
      · rw [cleanupBoards] at hq
        simp only [hp, if_true, he, if_false] at hq
        rcases List.mem_cons.mp hq with h | h
        · rw [h]
          simp
        · have := ih q h
          simp only [List.map_cons, List.mem_cons]
          exact Or.inr this
    · rw [cleanupBoards] at hq
      simp only [hp, if_false] at hq
      rcases List.mem_cons.mp hq with h | h
      · rw [h]
        simp
      · have := ih q h
        simp only [List.map_cons, List.mem_cons]
        exact Or.inr this

theorem cleanupBoards_lookup_evicted (m : List (BoardId × List (SocketId × UserEntry)))
    (sid : SocketId) (b : BoardId) (users : List (SocketId × UserEntry))
    (hnd : (m.map Prod.fst).Nodup)
    (hb : mapLookup m b = some users) (hmem : mapHas users sid = true)
    (hemp : (users.filter (fun q => !(q.1 = sid : Bool))).isEmpty = true) :
    mapLookup (cleanupBoards m sid).1 b = none := by
  induction m with
  | nil => simp [mapLookup] at hb
  | cons p rest ih =>
    have hpk : p.1 ∉ rest.map Prod.fst := by
      have := hnd
      simp only [List.map_cons, List.nodup_cons] at this
      exact this.1
    have hnd' : (rest.map Prod.fst).Nodup := by
      have := hnd
      simp only [List.map_cons, List.nodup_cons] at this
      exact this.2
    by_cases hpb : p.1 = b
    · have hpu : p.2 = users := by
        rw [mapLookup] at hb
        simpa [hpb] using hb
      have hp : mapHas p.2 sid = true := hpu ▸ hmem
      have he : (p.2.filter (fun q => !(q.1 = sid : Bool))).isEmpty = true := hpu ▸ hemp
      rw [cleanupBoards]
      simp only [hp, if_true, he]
      apply mapLookup_eq_none_of_keys
      intro q hq
      have := cleanupBoards_keys rest sid q hq
      intro hc
      apply hpk
      rw [hpb, ← hc]
      exact this
    · have hb' : mapLookup rest b = some users := by
        rw [mapLookup] at hb
        simpa [hpb] using hb
      by_cases hp : mapHas p.2 sid
      · by_cases he : (p.2.filter (fun r => !(r.1 = sid : Bool))).isEmpty
        · rw [cleanupBoards]
          simp only [hp, if_true, he, if_true]
          exact ih hnd' hb'
        · rw [cleanupBoards]
          simp only [hp, if_true, he, if_false]
          simp only [mapLookup, hpb, if_false]
          exact ih hnd' hb'
      · rw [cleanupBoards]
        simp only [hp, if_false]
        simp only [mapLookup, hpb, if_false]
        exact ih hnd' hb'

theorem cleanupBoards_lookup_kept (m : List (BoardId × List (SocketId × UserEntry)))
    (sid : SocketId) (b : BoardId) (users : List (SocketId × UserEntry))
    (hb : mapLookup m b = some users) (hmem : mapHas users sid = true)
    (hemp : (users.filter (fun q => !(q.1 = sid : Bool))).isEmpty = false) :
    mapLookup (cleanupBoards m sid).1 b =
      some (users.filter (fun q => !(q.1 = sid : Bool))) := by
  induction m with
  | nil => simp [mapLookup] at hb
  | cons p rest ih =>
    by_cases hpb : p.1 = b
    · have hpu : p.2 = users := by
        rw [mapLookup] at hb
        simpa [hpb] using hb
      have hp : mapHas p.2 sid = true := hpu ▸ hmem
      have he : (p.2.filter (fun q => !(q.1 = sid : Bool))).isEmpty = false := hpu ▸ hemp
      rw [cleanupBoards]
      simp only [hp, if_true, he, if_false]
      simp [mapLookup, hpb, hpu]
    · have hb' : mapLookup rest b = some users := by
        rw [mapLookup] at hb
        simpa [hpb] using hb
      by_cases hp : mapHas p.2 sid
      · by_cases he : (p.2.filter (fun r => !(r.1 = sid : Bool))).isEmpty
        · rw [cleanupBoards]
          simp only [hp, if_true, he, if_true]
          exact ih hb'
        · rw [cleanupBoards]
          simp only [hp, if_true, he, if_false]
          simp only [mapLookup, hpb, if_false]
          exact ih hb'
      · rw [cleanupBoards]
        simp only [hp, if_false]
        simp only [mapLookup, hpb, if_false]
        exact ih hb'

theorem cleanupBoards_emits_userLeft (m : List (BoardId × List (SocketId × UserEntry)))
    (sid : SocketId) (b : BoardId) (users : List (SocketId × UserEntry))
    (hb : mapLookup m b = some users) (hmem : mapHas users sid = true) :
    Emit.toRoom b (Msg.userLeft sid) ∈ (cleanupBoards m sid).2 := by
  induction m with
  | nil => simp [mapLookup] at hb
  | cons p rest ih =>
    by_cases hpb : p.1 = b
    · have hpu : p.2 = users := by
        rw [mapLookup] at hb
        simpa [hpb] using hb
      have hp : mapHas p.2 sid = true := hpu ▸ hmem
      rw [cleanupBoards]
      simp [hp, hpb]
    · have hb' : mapLookup rest b = some users := by
        rw [mapLookup] at hb
        simpa [hpb] using hb
      by_cases hp : mapHas p.2 sid
      · rw [cleanupBoards]
        simp only [hp, if_true]
        exact List.mem_cons_of_mem _ (ih hb')
      · rw [cleanupBoards]
        simp only [hp, if_false]
        exact ih hb'

theorem mapHas_mapSet_self {α β : Type} [DecidableEq α] (m : List (α × β)) (k : α) (v : β) :
    mapHas (mapSet m k v) k = true := by
  simp [mapHas, mapLookup_mapSet_self]

/-! ### Concrete fixture states used by witnesses and counterexamples -/

/-- Board membership fixture: uA and uB are members of b1, only uB of b2. -/
def dbFix : DbState :=
  { members := [("b1", "uA"), ("b1", "uB"), ("b2", "uB")], elements := [] }

/-- User fixture A. -/
def userA : UserInfo := { userId := "uA", name := "Alice" }

/-- User fixture B. -/
def userB : UserInfo := { userId := "uB", name := "Bob" }

/-- Fresh server fixture. -/
def stFix : ServerState := { db := dbFix, boardUsers := [], rooms := [], nextId := 0 }

/-- Fixture after socket 0 (user uA) joined board b1. -/
def stJoinedA : ServerState := (joinBoard stFix 0 (some "b1", some userA) 0).1

/-- Fixture after socket 0 (uA) and socket 1 (uB) both joined board b1. -/
def stJoinedAB : ServerState := (joinBoard stJoinedA 1 (some "b1", some userB) 1).1

/-- Client element payload fixture; the client even proposes an id, which
the server must discard. -/
def payloadFix : ElementPayload :=
  { clientId := some 99, type := "note", content := "hi", position := "p0", style := "s0" }

/-- Client update payload fixture targeting element id 0. -/
def updFix : UpdatePayload :=
  { id := some 0, content := "c1", position := "p1", style := "s1" }

/-! ### Claim theorems -/

/-- Claim C1: when the Membership Oracle authorization check fails for a
join request, the join-board handler emits the authorization-denied error
to the requesting socket only, the server state is completely unchanged
(no presence entry, no room binding), and no user-joined notification is
broadcast: the only emission is the scoped error. -/
theorem join_denied_scoped_error_no_state_change (st : ServerState) (sid : SocketId)
    (b : BoardId) (u : UserInfo) (c : Nat)
    (hdenied : checkBoardAccess st.db b u.userId = false) :
    joinBoard st sid (some b, some u) c =
      (st, [Emit.toSocket sid (Msg.error "You do not have access to this board")]) ∧
    ∀ s, deliveredTo st.rooms
        (Emit.toSocket sid (Msg.error "You do not have access to this board")) s = true →
      s = sid := by
  constructor
  · simp [joinBoard, hdenied]
  · intro s hs
    simpa [deliveredTo] using hs

/-- Witness for C1: uA is not a member of b2, so the denied join leaves
the state (with uA already present in b1) untouched and sends only the
error to the requesting socket. -/
theorem join_denied_scoped_error_no_state_change_witness :
    joinBoard stJoinedA 1 (some "b2", some userA) 1 =
      (stJoinedA, [Emit.toSocket 1 (Msg.error "You do not have access to this board")]) :=
  (join_denied_scoped_error_no_state_change stJoinedA 1 "b2" userA 1 (by decide)).1

/-- Claim C6: when the awaited persistence call of create-element,
update-element or delete-element rejects, the handler emits the failure
error to the sending socket only, performs no room broadcast, and leaves
the entire server state (including presence) unchanged. -/
theorem mutation_storage_failure_scoped (st : ServerState) (sid : SocketId) (b : BoardId)
    (p : ElementPayload) (up : UpdatePayload) (i j : Nat) (hid : up.id = some j) :
    createElement st sid (some b, some p) false =
      (st, [Emit.toSocket sid (Msg.error "Failed to create element")]) ∧
    updateElement st sid (some b, some up) false =
      (st, [Emit.toSocket sid (Msg.error "Failed to update element")]) ∧
    deleteElement st sid (some b, some i) false =
      (st, [Emit.toSocket sid (Msg.error "Failed to delete element")]) ∧
    ∀ s m, s ≠ sid → deliveredTo st.rooms (Emit.toSocket sid (Msg.error m)) s = false := by
  refine ⟨rfl, ?_, rfl, ?_⟩
  · simp [updateElement, hid]
  · intro s m hne
    simp [deliveredTo, hne]

/-- Witness for C6: a failing store call on the two-member room fixture
produces exactly the scoped error and no other effect, and the error is
not delivered to the other room member. -/
theorem mutation_storage_failure_scoped_witness :
    createElement stJoinedAB 0 (some "b1", some payloadFix) false =
      (stJoinedAB, [Emit.toSocket 0 (Msg.error "Failed to create element")]) ∧
    updateElement stJoinedAB 0 (some "b1", some updFix) false =
      (stJoinedAB, [Emit.toSocket 0 (Msg.error "Failed to update element")]) ∧
    deleteElement stJoinedAB 0 (some "b1", some 0) false =
      (stJoinedAB, [Emit.toSocket 0 (Msg.error "Failed to delete element")]) ∧
    deliveredTo stJoinedAB.rooms
      (Emit.toSocket 0 (Msg.error "Failed to create element")) 1 = false := by
  have h := mutation_storage_failure_scoped stJoinedAB 0 "b1" payloadFix updFix 0 0 (by decide)
  exact ⟨h.1, h.2.1, h.2.2.1, h.2.2.2 1 "Failed to create element" (by decide)⟩

/-- Claim C7: disconnect cleanup is idempotent: a second run on the same
socket returns the state produced by the first run unchanged and emits
nothing, so there is no duplicate user-left broadcast and no error. -/
theorem disconnect_cleanup_idempotent (st : ServerState) (sid : SocketId) :
    disconnect (disconnect st sid).1 sid = ((disconnect st sid).1, []) := by
  have h1 := cleanupBoards_of_no_sid (cleanupBoards st.boardUsers sid).1 sid
    (cleanupBoards_no_sid st.boardUsers sid)
  have h2 := leaveAllRooms_idem st.rooms sid
  simp [disconnect, h1, h2]

/-- Claim C9: cursor-move persists nothing (the state is returned as is)
and broadcasts cursor-update through the sender-excluding room emission:
the sender never receives it, every other room member does. -/
theorem cursor_move_ephemeral_excludes_sender (st : ServerState) (sid : SocketId)
    (b : BoardId) (p : Pos) :
    cursorMove st sid (some b, some p) =
      (st, [Emit.toRoomExcept b sid (Msg.cursorUpdate sid p)]) ∧
    deliveredTo st.rooms (Emit.toRoomExcept b sid (Msg.cursorUpdate sid p)) sid = false ∧
    ∀ s, s ∈ roomMembers st.rooms b → s ≠ sid →
      deliveredTo st.rooms (Emit.toRoomExcept b sid (Msg.cursorUpdate sid p)) s = true := by
  refine ⟨rfl, by simp [deliveredTo], ?_⟩
  intro s hs hne
  simp [deliveredTo, hs, hne]

/-- Witness for C9: with sockets 0 and 1 both joined to b1, a cursor move
by 0 changes nothing, is not delivered to 0, and is delivered to 1. -/
theorem cursor_move_ephemeral_excludes_sender_witness :
    cursorMove stJoinedAB 0 (some "b1", some { x := 5, y := 5 }) =
      (stJoinedAB, [Emit.toRoomExcept "b1" 0 (Msg.cursorUpdate 0 { x := 5, y := 5 })]) ∧
    deliveredTo stJoinedAB.rooms
      (Emit.toRoomExcept "b1" 0 (Msg.cursorUpdate 0 { x := 5, y := 5 })) 0 = false ∧
    deliveredTo stJoinedAB.rooms
      (Emit.toRoomExcept "b1" 0 (Msg.cursorUpdate 0 { x := 5, y := 5 })) 1 = true := by
  have h := cursor_move_ephemeral_excludes_sender stJoinedAB 0 "b1" { x := 5, y := 5 }
  exact ⟨h.1, h.2.1, h.2.2 1 (by decide) (by decide)⟩

/-- Claim C5: on a successful create-element from a joined connection the
server draws a fresh id (under the generator invariant the drawn id is
not the id of any stored element), the broadcast element carries that
server id whatever id the client proposed, the element is appended to the
store before the broadcast is produced, and the room broadcast reaches
every room member, the sender included. -/
theorem create_element_assigns_id_persists_broadcasts (st : ServerState)
    (sid : SocketId) (b : BoardId) (p : ElementPayload)
    (hjoined : sid ∈ roomMembers st.rooms b)
    (hfresh : ∀ e ∈ st.db.elements, e.id < st.nextId) :
    createElement st sid (some b, some p) true =
      ({ st with
          db := { st.db with
            elements := st.db.elements ++ [storeElement b (withServerId p st.nextId)] },
          nextId := st.nextId + 1 },
       [Emit.toRoom b (Msg.elementCreated (withServerId p st.nextId))]) ∧
    (withServerId p st.nextId).id = st.nextId ∧
    st.nextId ∉ st.db.elements.map (fun e => e.id) ∧
    deliveredTo st.rooms (Emit.toRoom b (Msg.elementCreated (withServerId p st.nextId))) sid = true ∧
    ∀ s, s ∈ roomMembers st.rooms b →
      deliveredTo st.rooms (Emit.toRoom b (Msg.elementCreated (withServerId p st.nextId))) s = true := by
  refine ⟨rfl, rfl, ?_, by simp [deliveredTo, hjoined], ?_⟩
  · intro hmem
    rw [List.mem_map] at hmem
    obtain ⟨e, he, hid⟩ := hmem
    have := hfresh e he
    omega
  · intro s hs
    simp [deliveredTo, hs]

/-- Witness for C5: socket 0 creates an element in the two-member room;
the element is stored with the server id, and the broadcast is delivered
to socket 0 and socket 1 alike. -/
theorem create_element_assigns_id_persists_broadcasts_witness :
    createElement stJoinedAB 0 (some "b1", some payloadFix) true =
      ({ stJoinedAB with
          db := { stJoinedAB.db with
            elements := stJoinedAB.db.elements ++
              [storeElement "b1" (withServerId payloadFix stJoinedAB.nextId)] },
          nextId := stJoinedAB.nextId + 1 },
       [Emit.toRoom "b1" (Msg.elementCreated (withServerId payloadFix stJoinedAB.nextId))]) ∧
    deliveredTo stJoinedAB.rooms
      (Emit.toRoom "b1" (Msg.elementCreated (withServerId payloadFix stJoinedAB.nextId))) 0 = true ∧
    deliveredTo stJoinedAB.rooms
      (Emit.toRoom "b1" (Msg.elementCreated (withServerId payloadFix stJoinedAB.nextId))) 1 = true := by
  have h := create_element_assigns_id_persists_broadcasts stJoinedAB 0 "b1" payloadFix
    (by decide) (by decide)
  exact ⟨h.1, h.2.2.2.1, h.2.2.2.2 1 (by decide)⟩

/-- Claim C10: on a successful join of a socket not already present in the
room, the current-users snapshot emitted to the joiner is the previous
presence list with the joiner appended, so it contains the joiner itself
with its newly assigned color, because the presence entry is inserted
before the snapshot is taken; the handler then emits user-joined to the
others and load-elements to the joiner. -/
theorem join_snapshot_contains_joiner (st : ServerState) (sid : SocketId) (b : BoardId)
    (u : UserInfo) (c : Nat)
    (hacc : checkBoardAccess st.db b u.userId = true)
    (hnew : mapHas ((mapLookup st.boardUsers b).getD []) sid = false) :
    (joinBoard st sid (some b, some u) c).2 =
      [Emit.toRoomExcept b sid (Msg.userJoined sid ⟨u.userId, u.name, randColor c⟩),
       Emit.toSocket sid (Msg.currentUsers
         (((mapLookup st.boardUsers b).getD []) ++ [(sid, ⟨u.userId, u.name, randColor c⟩)])),
       Emit.toSocket sid (Msg.loadElements (getBoardElements st.db b))] := by
  simp [joinBoard, hacc, joinBoardStart, joinPhase2, mapSet_of_not_has _ _ _ hnew]

/-- Witness for C10: socket 1 joining b1 after socket 0 receives the
snapshot holding both entries, its own (with its color) included. -/
theorem join_snapshot_contains_joiner_witness :
    (joinBoard stJoinedA 1 (some "b1", some userB) 1).2 =
      [Emit.toRoomExcept "b1" 1 (Msg.userJoined 1 ⟨"uB", "Bob", randColor 1⟩),
       Emit.toSocket 1 (Msg.currentUsers
         [(0, ⟨"uA", "Alice", randColor 0⟩), (1, ⟨"uB", "Bob", randColor 1⟩)]),
       Emit.toSocket 1 (Msg.loadElements [])] := by
  have h := join_snapshot_contains_joiner stJoinedA 1 "b1" userB 1 (by decide) (by decide)
  exact h.trans (by decide)

/-- Claim C8: disconnecting a socket that holds a presence entry in a
board emits user-left for that board; if the socket was the last entry
the board is evicted from the presence map (lookup yields none), while
with entries remaining the board keeps exactly the other entries; the
departed socket is no longer a room member, and every remaining room
member receives the user-left broadcast. -/
theorem presence_removal_notifies_and_evicts (st : ServerState) (sid : SocketId)
    (b : BoardId) (users : List (SocketId × UserEntry))
    (hnd : (st.boardUsers.map Prod.fst).Nodup)
    (hb : mapLookup st.boardUsers b = some users)
    (hmem : mapHas users sid = true) :
    Emit.toRoom b (Msg.userLeft sid) ∈ (disconnect st sid).2 ∧
    ((users.filter (fun q => !(q.1 = sid : Bool))).isEmpty = true →
      mapLookup (disconnect st sid).1.boardUsers b = none) ∧
    ((users.filter (fun q => !(q.1 = sid : Bool))).isEmpty = false →
      mapLookup (disconnect st sid).1.boardUsers b =
        some (users.filter (fun q => !(q.1 = sid : Bool)))) ∧
    sid ∉ roomMembers (disconnect st sid).1.rooms b ∧
    ∀ s, s ∈ roomMembers (disconnect st sid).1.rooms b →
      deliveredTo (disconnect st sid).1.rooms (Emit.toRoom b (Msg.userLeft sid)) s = true := by
  refine ⟨?_, ?_, ?_, ?_, ?_⟩
  · simpa [disconnect] using cleanupBoards_emits_userLeft st.boardUsers sid b users hb hmem
  · intro he
    simpa [disconnect] using
      cleanupBoards_lookup_evicted st.boardUsers sid b users hnd hb hmem he
  · intro he
    simpa [disconnect] using cleanupBoards_lookup_kept st.boardUsers sid b users hb hmem he
  · simpa [disconnect] using not_mem_roomMembers_leaveAllRooms st.rooms b sid
  · intro s hs
    simp only [disconnect] at hs ⊢
    simp [deliveredTo, hs]

/-- Witness for C8: socket 0 disconnects from the two-member room; the
user-left emission is present, socket 1 remains the only presence entry,
socket 0 is out of the room, and socket 1 receives the broadcast. -/
theorem presence_removal_notifies_and_evicts_witness :
    Emit.toRoom "b1" (Msg.userLeft 0) ∈ (disconnect stJoinedAB 0).2 ∧
    mapLookup (disconnect stJoinedAB 0).1.boardUsers "b1" =
      some ([(0, ⟨"uA", "Alice", randColor 0⟩), (1, ⟨"uB", "Bob", randColor 1⟩)].filter
        (fun q => !(q.1 = 0 : Bool))) ∧
    (0 : SocketId) ∉ roomMembers (disconnect stJoinedAB 0).1.rooms "b1" ∧
    deliveredTo (disconnect stJoinedAB 0).1.rooms (Emit.toRoom "b1" (Msg.userLeft 0)) 1 = true := by
  have h := presence_removal_notifies_and_evicts stJoinedAB 0 "b1"
    [(0, ⟨"uA", "Alice", randColor 0⟩), (1, ⟨"uB", "Bob", randColor 1⟩)]
    (by decide) (by decide) (by decide)
  exact ⟨h.1, h.2.2.1 (by decide), h.2.2.2.1, h.2.2.2.2 1 (by decide)⟩

/-- Claim C4 counterexample: socket 1 is already bound to b1 (the state
stJoinedAB), yet a further join request for b2 does not fail: it changes
the state, leaves the socket with presence entries in both b1 and b2
simultaneously, and emits the normal success messages rather than any
error, refuting the claim that a second join is rejected with no state
change. -/
theorem second_join_not_rejected :
    (joinBoard stJoinedAB 1 (some "b2", some userB) 2).1 ≠ stJoinedAB ∧
    mapHas ((mapLookup (joinBoard stJoinedAB 1 (some "b2", some userB) 2).1.boardUsers
      "b1").getD []) 1 = true ∧
    mapHas ((mapLookup (joinBoard stJoinedAB 1 (some "b2", some userB) 2).1.boardUsers
      "b2").getD []) 1 = true ∧
    (joinBoard stJoinedAB 1 (some "b2", some userB) 2).2 =
      [Emit.toRoomExcept "b2" 1 (Msg.userJoined 1 ⟨"uB", "Bob", randColor 2⟩),
       Emit.toSocket 1 (Msg.currentUsers [(1, ⟨"uB", "Bob", randColor 2⟩)]),
       Emit.toSocket 1 (Msg.loadElements [])] := by
  refine ⟨by decide, by decide, by decide, by decide⟩

/-- Claim C4 as amended: a join request from a connection that is already
bound to a room does not fail and requires no prior leave: given access,
it succeeds, keeps the existing presence entry of the first board, adds a
presence entry in the second board and adds the socket to the second
room, so a connection can hold two simultaneous room memberships. -/
theorem second_join_adds_second_membership (st : ServerState) (sid : SocketId)
    (bOld bNew : BoardId) (u : UserInfo) (c : Nat)
    (hbound : mapHas ((mapLookup st.boardUsers bOld).getD []) sid = true)
    (hacc : checkBoardAccess st.db bNew u.userId = true)
    (hne : bOld ≠ bNew) :
    mapHas ((mapLookup (joinBoard st sid (some bNew, some u) c).1.boardUsers bOld).getD [])
      sid = true ∧
    mapHas ((mapLookup (joinBoard st sid (some bNew, some u) c).1.boardUsers bNew).getD [])
      sid = true ∧
    sid ∈ roomMembers (joinBoard st sid (some bNew, some u) c).1.rooms bNew := by
  refine ⟨?_, ?_, ?_⟩
  · simpa [joinBoard, hacc, joinBoardStart,
      mapLookup_mapSet_ne st.boardUsers bNew bOld _ (Ne.symm hne)] using hbound
  · simp [joinBoard, hacc, joinBoardStart, mapLookup_mapSet_self, mapHas_mapSet_self]
  · simpa [joinBoard, hacc, joinBoardStart] using
      mem_roomMembers_joinRoom st.rooms bNew sid

/-- Witness for the amended C4: socket 1, already joined to b1, joins b2
and ends up present in both boards. -/
theorem second_join_adds_second_membership_witness :
    mapHas ((mapLookup (joinBoard stJoinedAB 1 (some "b2", some userB) 2).1.boardUsers
      "b1").getD []) 1 = true ∧
    mapHas ((mapLookup (joinBoard stJoinedAB 1 (some "b2", some userB) 2).1.boardUsers
      "b2").getD []) 1 = true ∧
    1 ∈ roomMembers (joinBoard stJoinedAB 1 (some "b2", some userB) 2).1.rooms "b2" :=
  second_join_adds_second_membership stJoinedAB 1 "b1" "b2" userB 2
    (by decide) (by decide) (by decide)

/-- Fixture for C2: a server with a member uA of b1 but no socket ever
joined (empty presence and rooms); socket 9 has never joined anything. -/
def stNoJoin : ServerState :=
  { db := { members := [("b1", "uA")], elements := [] },
    boardUsers := [], rooms := [], nextId := 0 }

/-- Fixture for C2: same as stNoJoin but with one stored element of id 0
on b1, so update and delete have something to mutate. -/
def stNoJoinElem : ServerState :=
  { db := { members := [("b1", "uA")],
            elements := [storeElement "b1" (withServerId payloadFix 0)] },
    boardUsers := [], rooms := [], nextId := 1 }

/-- Claim C2 is violated by the code: the mutation handlers never consult
join status or membership, so a socket (id 9) that has never joined any
board persists a create (the element is inserted into the store and the
broadcast is emitted), persists an update (the stored row is rewritten)
and persists a delete (the row is removed); nothing rejects the events. -/
theorem never_joined_mutation_still_persists :
    (createElement stNoJoin 9 (some "b1", some payloadFix) true).1.db.elements =
      [storeElement "b1" (withServerId payloadFix 0)] ∧
    (createElement stNoJoin 9 (some "b1", some payloadFix) true).2 =
      [Emit.toRoom "b1" (Msg.elementCreated (withServerId payloadFix 0))] ∧
    (updateElement stNoJoinElem 9 (some "b1", some updFix) true).1.db.elements =
      [{ id := 0, boardId := "b1", type := "note",
         content := "c1", position := "p1", style := "s1" }] ∧
    (deleteElement stNoJoinElem 9 (some "b1", some 0) true).1.db.elements = [] := by
  refine ⟨by decide, by decide, by decide, by decide⟩

/-- Fixture for C3: uA and uB are members of b1, no elements yet. -/
def stC3 : ServerState :=
  { db := { members := [("b1", "uA"), ("b1", "uB")], elements := [] },
    boardUsers := [], rooms := [], nextId := 0 }

/-- The C3 interleaving: socket 0 (uA) joins b1 and the handler runs to
completion; socket 1 (uB) starts joining and is suspended at the
db.getBoardElements await, after its socket.join and its current-users
emission; during that await socket 0 creates an element, whose awaited
insert resolves first, so the whole create handler including the room
broadcast runs; then the join of socket 1 resumes and emits
load-elements.  Every segment boundary is an await point of the source,
so this is a schedule the Node event loop can produce. -/
def traceC3 : List Seg :=
  [Seg.segJoin 0 (some "b1", some userA) 0,
   Seg.segJoinSnap 1 (some "b1", some userB) 1,
   Seg.segCreate 0 (some "b1", some payloadFix) true,
   Seg.segJoinLoad 1 "b1"]

/-- Claim C3 is violated by the code: in the traceC3 schedule the joining
socket 1 receives, in order, its presence snapshot, then the
element-created broadcast of a mutation accepted after its join, and only
then its join-time element snapshot load-elements, because the join
handler awaits db.getBoardElements after socket.join has already made the
joiner a broadcast target but before load-elements is emitted. -/
theorem joiner_receives_mutation_before_snapshot :
    receivedBy (run stC3 traceC3).2 1 =
      [Msg.currentUsers [(0, ⟨"uA", "Alice", randColor 0⟩), (1, ⟨"uB", "Bob", randColor 1⟩)],
       Msg.elementCreated (withServerId payloadFix 0),
       Msg.loadElements [storeElement "b1" (withServerId payloadFix 0)]] := by
  decide

end Board
